import Mathlib

/-!
Verification of the DQN training loop in `src/dqn/train.py`.

The per-batch temporal-difference target computation (lines 133-146) is
embedded per sample over `ℚ` (each row of the batch tensors is one sample;
the Q-value row of a network at the next state is a `List ℚ`).  The
orchestration loop of `main` (lines 101-194) and `eval_model` (lines 24-33)
are embedded as an explicit state machine over abstract network-parameter
and environment types, since `networks.py` and `replay_buffers.py` are not
part of the visible source.
-/

namespace DQNTrain

/-- Binary maximum on `ℚ`, written with an explicit comparison so that it
evaluates by kernel reduction; used wherever the source takes a maximum. -/
def rmax (a b : ℚ) : ℚ := if a < b then b else a

theorem rmax_eq_max (a b : ℚ) : rmax a b = max a b := by
  unfold rmax
  rcases lt_or_ge a b with h | h
  · rw [if_pos h, max_eq_right (le_of_lt h)]
  · rw [if_neg (not_lt.mpr h), max_eq_left h]

/-- `torch.max(xs, dim=1)[0]` on one row: the maximum entry of the list
(0 for the empty list, on which torch would fail). -/
def maxVal : List ℚ → ℚ
  | [] => 0
  | [x] => x
  | x :: y :: t => rmax x (maxVal (y :: t))

/-- `torch.max(xs, dim=1)[1]` on one row: the index of the first maximal
entry of the list (0 for the empty list). -/
def argmaxIdx : List ℚ → Nat
  | [] => 0
  | [_] => 0
  | x :: y :: t => if x < maxVal (y :: t) then argmaxIdx (y :: t) + 1 else 0

theorem getD_argmaxIdx : ∀ xs : List ℚ, xs.getD (argmaxIdx xs) 0 = maxVal xs
  | [] => rfl
  | [_] => rfl
  | x :: y :: t => by
    have ih := getD_argmaxIdx (y :: t)
    by_cases h : x < maxVal (y :: t)
    · simp only [argmaxIdx, maxVal, rmax, if_pos h]
      simpa [List.getD] using ih
    · simp only [argmaxIdx, maxVal, rmax, if_neg h]
      simp [List.getD]

/-- One row of the vanilla TD target (train.py lines 144-146):
`q_ns = max_a targ_q_ns[a]`, `q_targ = r + GAMMA * (1 - d) * q_ns`. -/
def vanillaTarget (GAMMA r d : ℚ) (targQns : List ℚ) : ℚ :=
  r + GAMMA * (1 - d) * maxVal targQns

/-- One row of the double-DQN TD target (train.py lines 137-146):
`max_a_ns = argmax_a online_q_ns[a]`, `q_ns = targ_q_ns[max_a_ns]`,
`q_targ = r + GAMMA * (1 - d) * q_ns`. -/
def doubleTarget (GAMMA r d : ℚ) (onlineQns targQns : List ℚ) : ℚ :=
  r + GAMMA * (1 - d) * targQns.getD (argmaxIdx onlineQns) 0

/-- One sampled transition row of a batch: reward, the `done` flag as the
0/1 rational the float tensor holds, and the two networks' Q-value rows at
the next state. -/
structure Sample where
  reward : ℚ
  doneF : ℚ
  onlineQns : List ℚ
  targQns : List ℚ
deriving DecidableEq

/-- The vanilla-mode TD-target batch (DDQN = False branch). -/
def qTargVanilla (GAMMA : ℚ) (batch : List Sample) : List ℚ :=
  batch.map fun t => vanillaTarget GAMMA t.reward t.doneF t.targQns

/-- The double-mode TD-target batch (DDQN = True branch). -/
def qTargDouble (GAMMA : ℚ) (batch : List Sample) : List ℚ :=
  batch.map fun t => doubleTarget GAMMA t.reward t.doneF t.onlineQns t.targQns

theorem doubleTarget_eq_vanilla_of_eq (GAMMA r d : ℚ) (q : List ℚ) :
    doubleTarget GAMMA r d q q = vanillaTarget GAMMA r d q := by
  unfold doubleTarget vanillaTarget
  rw [getD_argmaxIdx]

/-- Claim C1: in vanilla mode the TD target of each row is
`r + γ·(1−d)·max_a targ(ns)[a]`, in double mode it is
`r + γ·(1−d)·targ(ns)[argmax_a online(ns)[a]]`, and for any row with
`done = 1` the bootstrap term vanishes and the target equals the reward in
both modes. -/
theorem c1_td_target (GAMMA : ℚ) (batch : List Sample) :
    qTargVanilla GAMMA batch
      = batch.map (fun t => t.reward + GAMMA * (1 - t.doneF) * maxVal t.targQns) ∧
    qTargDouble GAMMA batch
      = batch.map (fun t =>
          t.reward + GAMMA * (1 - t.doneF) * t.targQns.getD (argmaxIdx t.onlineQns) 0) ∧
    ∀ t ∈ batch, t.doneF = 1 →
      vanillaTarget GAMMA t.reward t.doneF t.targQns = t.reward ∧
      doubleTarget GAMMA t.reward t.doneF t.onlineQns t.targQns = t.reward := by
  refine ⟨rfl, rfl, ?_⟩
  intro t _ hd
  constructor
  · simp [vanillaTarget, hd]
  · simp [doubleTarget, hd]

/-- Witness for C1 at a concrete one-row batch with `done = 1`. -/
theorem c1_td_target_witness :
    vanillaTarget (99/100) 5 1 [3, 4] = 5 ∧
    doubleTarget (99/100) 5 1 [1, 2] [3, 4] = 5 :=
  (c1_td_target (99/100) [⟨5, 1, [1, 2], [3, 4]⟩]).2.2
    ⟨5, 1, [1, 2], [3, 4]⟩ (by simp) rfl

/-- Claim C2: when the two networks compute identical Q-value rows the
double-mode and vanilla-mode TD-target batches coincide, and there is a
batch on which the two networks disagree about the arg-max action and the
two modes produce different TD targets. -/
theorem c2_double_vs_vanilla :
    (∀ (GAMMA : ℚ) (batch : List Sample),
        (∀ t ∈ batch, t.onlineQns = t.targQns) →
        qTargDouble GAMMA batch = qTargVanilla GAMMA batch) ∧
    (∃ (GAMMA : ℚ) (batch : List Sample),
        (∀ t ∈ batch, argmaxIdx t.onlineQns ≠ argmaxIdx t.targQns) ∧
        qTargDouble GAMMA batch ≠ qTargVanilla GAMMA batch) := by
  constructor
  · intro GAMMA batch h
    unfold qTargDouble qTargVanilla
    apply List.map_congr_left
    intro t ht
    rw [h t ht]
    exact doubleTarget_eq_vanilla_of_eq GAMMA t.reward t.doneF t.targQns
  · refine ⟨99/100, [⟨0, 0, [0, 1], [5, 3]⟩], ?_, ?_⟩
    · intro t ht
      simp only [List.mem_singleton] at ht
      subst ht
      decide
    · norm_num [qTargVanilla, qTargDouble, vanillaTarget, doubleTarget,
        maxVal, argmaxIdx, rmax, List.getD]

/-- Witness for C2 at a concrete batch whose two Q-value rows agree. -/
theorem c2_double_vs_vanilla_witness :
    qTargDouble (99/100) [⟨2, 0, [1, 7], [1, 7]⟩]
      = qTargVanilla (99/100) [⟨2, 0, [1, 7], [1, 7]⟩] :=
  c2_double_vs_vanilla.1 (99/100) [⟨2, 0, [1, 7], [1, 7]⟩] (by
    intro t ht
    simp only [List.mem_singleton] at ht
    subst ht
    rfl)

/-! ## The training loop of `main` (train.py lines 35-194) -/

/-- The hyperparameters read from the configuration (train.py lines 37-61).
Fields irrelevant to the loop semantics (run name, device, dueling flag,
PER alpha) are omitted. -/
structure HP where
  TOTAL_TIMESTEPS : Nat
  N_STEPS : Nat
  UPDATE_STEPS : Nat
  UPDATE_TARGET : Nat
  BATCH_SIZE : Nat
  BUFFER_SIZE : Nat
  GAMMA : ℚ
  INIT_LR : ℚ
  IS_LR_DECAY : Bool
  LR_DECAY : ℚ
  INIT_EPS : ℚ
  FIN_EPS : ℚ
  EXPLORE : Nat
  PER : Bool
  PER_BETA : ℚ
  PLOT_INTERVAL : Nat
  SEED : Nat

/-- The external collaborators of the loop, over an abstract parameter type
`P` (the state dict of a Q-network) and environment-state type `E`:
`reset seed` and `stepf s a = (next_s, rew, done, trunc)` are the gym
environment; `act p s eps` is `sample_discrete_action`; `grad p` is the
effect on the online parameters of one optimizer step (loss and batch
dependence abstracted); `initParams` the freshly initialized network;
`initEnv` the freshly made environment; `randint s` the value of
`np.random.randint(0,100)` after `np.random.seed(s)`. -/
structure Collab (P E : Type) where
  reset : Nat → E
  stepf : E → Nat → E × ℚ × Bool × Bool
  act : P → E → ℚ → Nat
  grad : P → P
  initParams : P
  initEnv : E
  randint : Nat → Nat

/-- The mutable state of `main`: counters, schedules, the two parameter
sets, the replay live-count, the environment, the seed drawn at startup,
and the bookkeeping lists.  `resetLog` records the seed passed to each
`env.reset` call, in order; `lastDone` is the `done` flag of the most
recent `env.step`. -/
structure TrainState (P E : Type) where
  step_counter : Nat
  lstep_counter : Nat
  epoch_counter : Nat
  epsilon : ℚ
  beta : ℚ
  lr : ℚ
  onlineParams : P
  targetParams : P
  replayCount : Nat
  envS : E
  lastDone : Bool
  eps_rew : ℚ
  env_seed : Nat
  resetLog : List Nat
  rewAccum : List ℚ
  evalAccum : List ℚ
  stepsAccum : List Nat

/-- `Modelled from the spec:` the effect of `exp_replay.insert` on the
store's live-count (`replay_buffers.py` is not part of the visible source;
spec §3/§4.1: the live-count increments by one up to the fixed capacity,
after which insertion overwrites the oldest slot). -/
def insertTransition (hp : HP) (c : Nat) : Nat :=
  min (c + 1) hp.BUFFER_SIZE

/-- Exploration decay (train.py line 161):
`epsilon = max(FIN_EPS, epsilon - (INIT_EPS - FIN_EPS) / EXPLORE)`. -/
def epsUpdate (hp : HP) (e : ℚ) : ℚ :=
  rmax hp.FIN_EPS (e - (hp.INIT_EPS - hp.FIN_EPS) / (hp.EXPLORE : ℚ))

/-- PER beta anneal (train.py lines 163-165):
`beta = beta + (step_counter / TOTAL_TIMESTEPS) * (1 - beta)`. -/
def betaUpdate (hp : HP) (step : Nat) (b : ℚ) : ℚ :=
  b + ((step : ℚ) / (hp.TOTAL_TIMESTEPS : ℚ)) * (1 - b)

/-- Target-network synchronization point (train.py lines 126-129): the
learning-update counter is incremented, and when the new count is a
multiple of `UPDATE_TARGET` the target parameters are overwritten with the
online parameters. -/
def syncPhase (hp : HP) {P E : Type} (st : TrainState P E) : TrainState P E :=
  if (st.lstep_counter + 1) % hp.UPDATE_TARGET = 0 then
    { st with lstep_counter := st.lstep_counter + 1, targetParams := st.onlineParams }
  else
    { st with lstep_counter := st.lstep_counter + 1 }

/-- One learning update (train.py lines 126-158): target sync check, then
batch sampling, TD-target computation and one gradient step on the online
parameters (the latter three abstracted into `grad`). -/
def doLearn (hp : HP) {P E : Type} (M : Collab P E) (st : TrainState P E) :
    TrainState P E :=
  let st1 := syncPhase hp st
  { st1 with onlineParams := M.grad st1.onlineParams }

/-- The guarded learning block (train.py line 125): a learning update runs
exactly when the replay live-count exceeds `BATCH_SIZE` and the step count
is a multiple of `UPDATE_STEPS`. -/
def learnPhase (hp : HP) {P E : Type} (M : Collab P E) (st : TrainState P E) :
    TrainState P E :=
  if hp.BATCH_SIZE < st.replayCount ∧ st.step_counter % hp.UPDATE_STEPS = 0 then
    doLearn hp M st
  else
    st

/-- One environment step of the training episode (train.py lines 116-168):
increment the step counter, act, step the environment, insert into replay,
maybe learn, decay epsilon, anneal beta when PER, advance the observation
and record the `done` flag.  The `trunc` flag returned by `env.step` is
bound at line 121 but never used. -/
def envStep (hp : HP) {P E : Type} (M : Collab P E) (st : TrainState P E) :
    TrainState P E :=
  let a := M.act st.onlineParams st.envS st.epsilon
  let r := M.stepf st.envS a
  let st1 : TrainState P E :=
    { st with
      step_counter := st.step_counter + 1
      replayCount := insertTransition hp st.replayCount
      eps_rew := st.eps_rew + r.2.1 }
  let st2 := learnPhase hp M st1
  let st3 := { st2 with epsilon := epsUpdate hp st2.epsilon }
  let st4 :=
    if hp.PER then { st3 with beta := betaUpdate hp st3.step_counter st3.beta } else st3
  { st4 with envS := r.1, lastDone := r.2.2.1 }

/-- The inner episode loop (train.py lines 115-168): at most `N_STEPS`
environment steps, breaking when `done` is reported. -/
def runEpisode (hp : HP) {P E : Type} (M : Collab P E) :
    Nat → TrainState P E → TrainState P E
  | 0, st => st
  | n + 1, st =>
    let st' := envStep hp M st
    if st'.lastDone then st' else runEpisode hp M n st'

/-- Start of one iteration of the outer while loop (train.py lines
110-113): increment the epoch counter, reset the environment with the
startup seed, zero the episode reward. -/
def episodeStart (hp : HP) {P E : Type} (M : Collab P E) (st : TrainState P E) :
    TrainState P E :=
  { st with
    epoch_counter := st.epoch_counter + 1
    envS := M.reset st.env_seed
    resetLog := st.resetLog ++ [st.env_seed]
    eps_rew := 0 }

/-- The loop body of `eval_model` (train.py lines 27-32): greedy action
(sentinel exploration rate -1), environment step, reward accumulation,
break on `done`; returns the accumulated reward and the environment state
left behind. -/
def evalSteps {P E : Type} (M : Collab P E) (p : P) :
    Nat → E → ℚ → ℚ × E
  | 0, e, acc => (acc, e)
  | n + 1, e, acc =>
    let a := M.act p e (-1)
    let r := M.stepf e a
    if r.2.2.1 then (acc + r.2.1, r.1) else evalSteps M p n r.1 (acc + r.2.1)

/-- `eval_model(model, env, max_steps, n_actions, env_seed)` (train.py
lines 24-33): reset with the given seed, then run the greedy loop. -/
def eval_model (hp : HP) {P E : Type} (M : Collab P E) (p : P) (seed : Nat) :
    ℚ × E :=
  evalSteps M p hp.N_STEPS (M.reset seed) 0

/-- End of one iteration of the outer while loop (train.py lines 170-194):
optional learning-rate decay, reward accumulation, and every
`PLOT_INTERVAL` epochs a greedy evaluation episode with `eval_model`. -/
def episodeEnd (hp : HP) {P E : Type} (M : Collab P E) (st : TrainState P E) :
    TrainState P E :=
  let st1 :=
    if hp.IS_LR_DECAY then
      { st with lr := st.lr / (1 + hp.LR_DECAY * (st.epoch_counter : ℚ)) }
    else st
  let st2 := { st1 with
    rewAccum := st1.rewAccum ++ [st1.eps_rew]
    stepsAccum := st1.stepsAccum ++ [st1.step_counter] }
  if st2.epoch_counter % hp.PLOT_INTERVAL = 0 then
    let ev := eval_model hp M st2.onlineParams st2.env_seed
    { st2 with
      evalAccum := st2.evalAccum ++ [ev.1]
      envS := ev.2
      resetLog := st2.resetLog ++ [st2.env_seed] }
  else st2

/-- One full iteration of the outer while loop (train.py lines 109-194). -/
def mainIter (hp : HP) {P E : Type} (M : Collab P E) (st : TrainState P E) :
    TrainState P E :=
  episodeEnd hp M (runEpisode hp M hp.N_STEPS (episodeStart hp M st))

/-- The outer while loop (train.py line 109), fuel-indexed: while
`step_counter < TOTAL_TIMESTEPS`, run one episode iteration. -/
def runMain (hp : HP) {P E : Type} (M : Collab P E) :
    Nat → TrainState P E → TrainState P E
  | 0, st => st
  | f + 1, st =>
    if st.step_counter < hp.TOTAL_TIMESTEPS then
      runMain hp M f (mainIter hp M st)
    else st

/-- The state at the top of the training loop (train.py lines 63-107):
seeds are set and `env_seed = np.random.randint(0,100)` is drawn once; the
target network is a copy of the freshly initialized online network; all
counters are zero, `epsilon = INIT_EPS`, `lr = INIT_LR`, and the PER beta
starts at `PER_BETA`. -/
def initState (hp : HP) {P E : Type} (M : Collab P E) : TrainState P E :=
  { step_counter := 0
    lstep_counter := 0
    epoch_counter := 0
    epsilon := hp.INIT_EPS
    beta := hp.PER_BETA
    lr := hp.INIT_LR
    onlineParams := M.initParams
    targetParams := M.initParams
    replayCount := 0
    envS := M.initEnv
    lastDone := false
    eps_rew := 0
    env_seed := M.randint hp.SEED
    resetLog := []
    rewAccum := []
    evalAccum := []
    stepsAccum := [] }

/-! ## Step-level characterization lemmas -/

/-- The guard of the learning block, phrased on the state before the step:
the live-count after this step's insertion exceeds `BATCH_SIZE` and the
incremented step counter is a multiple of `UPDATE_STEPS`. -/
def learnGuard (hp : HP) {P E : Type} (st : TrainState P E) : Prop :=
  hp.BATCH_SIZE < insertTransition hp st.replayCount ∧
    (st.step_counter + 1) % hp.UPDATE_STEPS = 0

instance (hp : HP) {P E : Type} (st : TrainState P E) :
    Decidable (learnGuard hp st) := by
  unfold learnGuard
  infer_instance

theorem envStep_step_counter (hp : HP) {P E : Type} (M : Collab P E)
    (st : TrainState P E) :
    (envStep hp M st).step_counter = st.step_counter + 1 := by
  simp only [envStep, learnPhase, doLearn, syncPhase]
  split_ifs <;> rfl

theorem envStep_replayCount (hp : HP) {P E : Type} (M : Collab P E)
    (st : TrainState P E) :
    (envStep hp M st).replayCount = insertTransition hp st.replayCount := by
  simp only [envStep, learnPhase, doLearn, syncPhase]
  split_ifs <;> rfl

theorem envStep_epsilon (hp : HP) {P E : Type} (M : Collab P E)
    (st : TrainState P E) :
    (envStep hp M st).epsilon = epsUpdate hp st.epsilon := by
  simp only [envStep, learnPhase, doLearn, syncPhase]
  split_ifs <;> rfl

theorem envStep_beta (hp : HP) {P E : Type} (M : Collab P E)
    (st : TrainState P E) :
    (envStep hp M st).beta =
      if hp.PER then betaUpdate hp (st.step_counter + 1) st.beta else st.beta := by
  simp only [envStep, learnPhase, doLearn, syncPhase]
  split_ifs <;> rfl

theorem envStep_lstep_counter (hp : HP) {P E : Type} (M : Collab P E)
    (st : TrainState P E) :
    (envStep hp M st).lstep_counter =
      if learnGuard hp st then st.lstep_counter + 1 else st.lstep_counter := by
  simp only [envStep, learnPhase, doLearn, syncPhase, learnGuard]
  split_ifs <;> rfl

theorem envStep_onlineParams (hp : HP) {P E : Type} (M : Collab P E)
    (st : TrainState P E) :
    (envStep hp M st).onlineParams =
      if learnGuard hp st then M.grad st.onlineParams else st.onlineParams := by
  simp only [envStep, learnPhase, doLearn, syncPhase, learnGuard]
  split_ifs <;> rfl

theorem envStep_targetParams (hp : HP) {P E : Type} (M : Collab P E)
    (st : TrainState P E) :
    (envStep hp M st).targetParams =
      if learnGuard hp st ∧ (st.lstep_counter + 1) % hp.UPDATE_TARGET = 0 then
        st.onlineParams
      else st.targetParams := by
  simp only [envStep, learnPhase, doLearn, syncPhase, learnGuard]
  split_ifs <;> first | rfl | tauto

theorem envStep_env_seed (hp : HP) {P E : Type} (M : Collab P E)
    (st : TrainState P E) :
    (envStep hp M st).env_seed = st.env_seed := by
  simp only [envStep, learnPhase, doLearn, syncPhase]
  split_ifs <;> rfl

theorem envStep_resetLog (hp : HP) {P E : Type} (M : Collab P E)
    (st : TrainState P E) :
    (envStep hp M st).resetLog = st.resetLog := by
  simp only [envStep, learnPhase, doLearn, syncPhase]
  split_ifs <;> rfl

theorem envStep_lastDone (hp : HP) {P E : Type} (M : Collab P E)
    (st : TrainState P E) :
    (envStep hp M st).lastDone =
      (M.stepf st.envS (M.act st.onlineParams st.envS st.epsilon)).2.2.1 := by
  simp only [envStep, learnPhase, doLearn, syncPhase]

/-! ## Concrete instances used by witnesses and counterexamples -/

/-- A small concrete hyperparameter set on which every learning guard
fires at every step. -/
def hpW : HP :=
  { TOTAL_TIMESTEPS := 8, N_STEPS := 2, UPDATE_STEPS := 1, UPDATE_TARGET := 1,
    BATCH_SIZE := 0, BUFFER_SIZE := 10, GAMMA := 99/100, INIT_LR := 1/1000,
    IS_LR_DECAY := false, LR_DECAY := 0, INIT_EPS := 1, FIN_EPS := 0,
    EXPLORE := 4, PER := true, PER_BETA := 2/5, PLOT_INTERVAL := 5, SEED := 0 }

/-- Like `hpW` but with a batch size the replay store has not yet filled. -/
def hpBig : HP :=
  { hpW with BATCH_SIZE := 64 }

/-- A concrete collaborator set: parameters are a version counter bumped by
each gradient step; the environment is a point that never terminates. -/
def MW : Collab Nat Unit :=
  { reset := fun _ => ()
    stepf := fun _ _ => ((), 1, false, false)
    act := fun _ _ _ => 0
    grad := fun p => p + 1
    initParams := 0
    initEnv := ()
    randint := fun _ => 42 }

/-! ## Claims C3, C4, C5 -/

/-- Claim C3: the target parameters are overwritten with the online
parameters exactly at learning updates whose learning-update count is a
multiple of `UPDATE_TARGET`; immediately after the sync point the two
parameter sets are equal; and the target parameters are untouched by any
environment step without a learning update and by any learning update
whose count is not a multiple of `UPDATE_TARGET`. -/
theorem c3_target_sync (hp : HP) {P E : Type} (M : Collab P E)
    (st : TrainState P E) :
    ((st.lstep_counter + 1) % hp.UPDATE_TARGET = 0 →
      (syncPhase hp st).targetParams = st.onlineParams ∧
      (syncPhase hp st).onlineParams = st.onlineParams) ∧
    (learnGuard hp st → (st.lstep_counter + 1) % hp.UPDATE_TARGET = 0 →
      (envStep hp M st).targetParams = st.onlineParams) ∧
    (learnGuard hp st → (st.lstep_counter + 1) % hp.UPDATE_TARGET ≠ 0 →
      (envStep hp M st).targetParams = st.targetParams) ∧
    (¬ learnGuard hp st → (envStep hp M st).targetParams = st.targetParams) := by
  refine ⟨?_, ?_, ?_, ?_⟩
  · intro hs
    unfold syncPhase
    rw [if_pos hs]
    exact ⟨rfl, rfl⟩
  · intro hg hs
    rw [envStep_targetParams, if_pos ⟨hg, hs⟩]
  · intro hg hs
    rw [envStep_targetParams, if_neg (by tauto)]
  · intro hg
    rw [envStep_targetParams, if_neg (by tauto)]

/-- Witness for C3: on `hpW` the very first environment step performs a
learning update and a sync, and the target parameters become the online
parameters. -/
theorem c3_target_sync_witness :
    (envStep hpW MW (initState hpW MW)).targetParams
      = (initState hpW MW).onlineParams :=
  (c3_target_sync hpW MW (initState hpW MW)).2.1 (by decide) (by decide)

/-- Claim C4: a learning update happens on an environment step exactly when
the post-insertion replay live-count strictly exceeds `BATCH_SIZE` and the
incremented step counter is a multiple of `UPDATE_STEPS`; while the
live-count is at most `BATCH_SIZE` no learning update occurs and no
parameter set changes (and the step is an ordinary, non-error step). -/
theorem c4_learn_cadence (hp : HP) {P E : Type} (M : Collab P E)
    (st : TrainState P E) :
    ((envStep hp M st).lstep_counter = st.lstep_counter + 1 ↔ learnGuard hp st) ∧
    (insertTransition hp st.replayCount ≤ hp.BATCH_SIZE →
      (envStep hp M st).lstep_counter = st.lstep_counter ∧
      (envStep hp M st).onlineParams = st.onlineParams ∧
      (envStep hp M st).targetParams = st.targetParams ∧
      (envStep hp M st).step_counter = st.step_counter + 1) := by
  constructor
  · rw [envStep_lstep_counter]
    constructor
    · intro h
      by_contra hg
      rw [if_neg hg] at h
      exact Nat.succ_ne_self st.lstep_counter h.symm
    · intro hg
      rw [if_pos hg]
  · intro hle
    have hg : ¬ learnGuard hp st := fun hg => absurd hg.1 (not_lt.mpr hle)
    refine ⟨?_, ?_, ?_, envStep_step_counter hp M st⟩
    · rw [envStep_lstep_counter, if_neg hg]
    · rw [envStep_onlineParams, if_neg hg]
    · rw [envStep_targetParams, if_neg (by tauto)]

/-- Witness for C4: on `hpBig` the replay store holds one transition after
the first insertion, which is at most the batch size of 64, so the first
step performs no learning update. -/
theorem c4_learn_cadence_witness :
    (envStep hpBig MW (initState hpBig MW)).lstep_counter
        = (initState hpBig MW).lstep_counter ∧
      (envStep hpBig MW (initState hpBig MW)).onlineParams
        = (initState hpBig MW).onlineParams ∧
      (envStep hpBig MW (initState hpBig MW)).targetParams
        = (initState hpBig MW).targetParams ∧
      (envStep hpBig MW (initState hpBig MW)).step_counter
        = (initState hpBig MW).step_counter + 1 :=
  (c4_learn_cadence hpBig MW (initState hpBig MW)).2 (by decide)

/-- The epsilon schedule as a function of the number of environment steps
taken: `epsAfter hp n` is the exploration rate after `n` steps. -/
def epsAfter (hp : HP) : Nat → ℚ
  | 0 => hp.INIT_EPS
  | n + 1 => epsUpdate hp (epsAfter hp n)

theorem epsAfter_closed (hp : HP)
    (hFI : hp.FIN_EPS ≤ hp.INIT_EPS) (hE : 1 ≤ hp.EXPLORE) :
    ∀ n : Nat,
      epsAfter hp n =
        max hp.FIN_EPS
          (hp.INIT_EPS - (n : ℚ) * ((hp.INIT_EPS - hp.FIN_EPS) / (hp.EXPLORE : ℚ))) := by
  have hd : 0 ≤ (hp.INIT_EPS - hp.FIN_EPS) / (hp.EXPLORE : ℚ) :=
    div_nonneg (sub_nonneg.mpr hFI) (by positivity)
  intro n
  induction n with
  | zero =>
    simp only [epsAfter, Nat.cast_zero, zero_mul, sub_zero]
    exact (max_eq_right hFI).symm
  | succ n ih =>
    rw [epsAfter, ih, epsUpdate, rmax_eq_max]
    set d := (hp.INIT_EPS - hp.FIN_EPS) / (hp.EXPLORE : ℚ) with hdef
    rcases le_or_lt hp.FIN_EPS (hp.INIT_EPS - (n : ℚ) * d) with h | h
    · rw [max_eq_right h]
      have : hp.INIT_EPS - (n : ℚ) * d - d
          = hp.INIT_EPS - ((n : ℚ) + 1) * d := by ring
      rw [this, Nat.cast_succ]
    · rw [max_eq_left (le_of_lt h)]
      have h1 : hp.FIN_EPS - d ≤ hp.FIN_EPS := by linarith
      have h2 : hp.INIT_EPS - ((n : ℚ) + 1) * d ≤ hp.FIN_EPS := by nlinarith
      rw [max_eq_left h1, Nat.cast_succ]
      exact (max_eq_left h2).symm

/-- Claim C5: the exploration rate is updated exactly once per environment
step by `epsilon = max(FIN_EPS, epsilon - (INIT_EPS - FIN_EPS)/EXPLORE)`;
with `INIT_EPS ≥ FIN_EPS` and `EXPLORE ≥ 1` it is non-increasing
step-over-step, never below `FIN_EPS`, and equals `FIN_EPS` at every step
count of at least `EXPLORE`. -/
theorem c5_epsilon_schedule (hp : HP) {P E : Type} (M : Collab P E)
    (hFI : hp.FIN_EPS ≤ hp.INIT_EPS) (hE : 1 ≤ hp.EXPLORE) :
    (∀ st : TrainState P E, (envStep hp M st).epsilon = epsUpdate hp st.epsilon) ∧
    (∀ n : Nat, epsAfter hp (n + 1) ≤ epsAfter hp n) ∧
    (∀ n : Nat, hp.FIN_EPS ≤ epsAfter hp n) ∧
    (∀ n : Nat, hp.EXPLORE ≤ n → epsAfter hp n = hp.FIN_EPS) := by
  have hd : 0 ≤ (hp.INIT_EPS - hp.FIN_EPS) / (hp.EXPLORE : ℚ) :=
    div_nonneg (sub_nonneg.mpr hFI) (by positivity)
  have hfin : ∀ n : Nat, hp.FIN_EPS ≤ epsAfter hp n := by
    intro n
    rw [epsAfter_closed hp hFI hE n]
    exact le_max_left _ _
  refine ⟨fun st => envStep_epsilon hp M st, ?_, hfin, ?_⟩
  · intro n
    show epsUpdate hp (epsAfter hp n) ≤ epsAfter hp n
    rw [epsUpdate, rmax_eq_max]
    exact max_le (hfin n) (by linarith)
  · intro n hn
    rw [epsAfter_closed hp hFI hE n]
    have hE0 : (hp.EXPLORE : ℚ) ≠ 0 := by positivity
    have hcast : (hp.EXPLORE : ℚ) ≤ (n : ℚ) := by exact_mod_cast hn
    have hmul : hp.INIT_EPS - hp.FIN_EPS
        ≤ (n : ℚ) * ((hp.INIT_EPS - hp.FIN_EPS) / (hp.EXPLORE : ℚ)) := by
      have h0 : (hp.EXPLORE : ℚ) * ((hp.INIT_EPS - hp.FIN_EPS) / (hp.EXPLORE : ℚ))
          = hp.INIT_EPS - hp.FIN_EPS := by
        field_simp
      calc hp.INIT_EPS - hp.FIN_EPS
          = (hp.EXPLORE : ℚ) * ((hp.INIT_EPS - hp.FIN_EPS) / (hp.EXPLORE : ℚ)) := h0.symm
        _ ≤ (n : ℚ) * ((hp.INIT_EPS - hp.FIN_EPS) / (hp.EXPLORE : ℚ)) :=
            mul_le_mul_of_nonneg_right hcast hd
    exact max_eq_left (by linarith)

/-- Witness for C5: on `hpW` (`INIT_EPS = 1`, `FIN_EPS = 0`,
`EXPLORE = 4`) the exploration rate is exactly `FIN_EPS` after 4 steps. -/
theorem c5_epsilon_schedule_witness : epsAfter hpW 4 = hpW.FIN_EPS :=
  (c5_epsilon_schedule hpW MW (by norm_num [hpW]) (by norm_num [hpW])).2.2.2
    4 (by norm_num [hpW])

/-- The run invariant of the bias-correction exponent: it lies in `[0, 1]`
and is exactly `1` once the step counter has reached the budget. -/
def betaInv (hp : HP) {P E : Type} (st : TrainState P E) : Prop :=
  0 ≤ st.beta ∧ st.beta ≤ 1 ∧
    (hp.TOTAL_TIMESTEPS ≤ st.step_counter → st.beta = 1)

theorem betaUpdate_ge (hp : HP) (n : Nat) (b : ℚ) (hb : b ≤ 1) :
    b ≤ betaUpdate hp n b := by
  unfold betaUpdate
  have hf : 0 ≤ (n : ℚ) / (hp.TOTAL_TIMESTEPS : ℚ) := by positivity
  nlinarith

/-- Claim C6: in PER mode the bias-correction exponent is updated exactly
once per environment step by
`beta = beta + (step_counter / TOTAL_TIMESTEPS) * (1 - beta)`; starting in
`[0, 1]` it is non-decreasing, stays at most `1`, and is exactly `1` from
the step where the step counter reaches `TOTAL_TIMESTEPS` on (the
invariant `betaInv` holds initially and is preserved by every step). -/
theorem c6_beta_schedule (hp : HP) {P E : Type} (M : Collab P E)
    (st : TrainState P E) (hPER : hp.PER = true)
    (hT : 1 ≤ hp.TOTAL_TIMESTEPS) (hInv : betaInv hp st) :
    (envStep hp M st).beta = betaUpdate hp (st.step_counter + 1) st.beta ∧
    st.beta ≤ (envStep hp M st).beta ∧
    betaInv hp (envStep hp M st) ∧
    (0 ≤ hp.PER_BETA → hp.PER_BETA ≤ 1 → betaInv hp (initState hp M)) := by
  obtain ⟨hb0, hb1, hbtop⟩ := hInv
  have heq : (envStep hp M st).beta = betaUpdate hp (st.step_counter + 1) st.beta := by
    rw [envStep_beta, if_pos hPER]
  have hT0 : (0 : ℚ) < (hp.TOTAL_TIMESTEPS : ℚ) := by
    exact_mod_cast Nat.lt_of_lt_of_le Nat.zero_lt_one hT
  refine ⟨heq, ?_, ?_, ?_⟩
  · rw [heq]
    exact betaUpdate_ge hp (st.step_counter + 1) st.beta hb1
  · have hstep : (envStep hp M st).step_counter = st.step_counter + 1 :=
      envStep_step_counter hp M st
    refine ⟨?_, ?_, ?_⟩
    · rw [heq]
      have := betaUpdate_ge hp (st.step_counter + 1) st.beta hb1
      linarith
    · rw [heq]
      unfold betaUpdate
      rcases le_or_lt (st.step_counter + 1) hp.TOTAL_TIMESTEPS with h | h
      · have hf1 : ((st.step_counter + 1 : Nat) : ℚ) / (hp.TOTAL_TIMESTEPS : ℚ) ≤ 1 := by
          rw [div_le_one hT0]
          exact_mod_cast h
        have hf0 : 0 ≤ ((st.step_counter + 1 : Nat) : ℚ) / (hp.TOTAL_TIMESTEPS : ℚ) := by
          positivity
        nlinarith
      · have : hp.TOTAL_TIMESTEPS ≤ st.step_counter := Nat.lt_succ_iff.mp h
        rw [hbtop this]
        ring_nf
        exact le_refl 1
    · intro hge
      rw [heq]
      unfold betaUpdate
      rw [hstep] at hge
      rcases Nat.lt_or_ge st.step_counter hp.TOTAL_TIMESTEPS with h | h
      · have hEq : st.step_counter + 1 = hp.TOTAL_TIMESTEPS := le_antisymm h hge
        rw [hEq]
        rw [div_self (ne_of_gt hT0)]
        ring
      · rw [hbtop h]
        ring
  · intro h0 h1
    refine ⟨h0, h1, ?_⟩
    intro habs
    have hz : (initState hp M).step_counter = 0 := rfl
    rw [hz] at habs
    exact absurd habs (by omega)

/-- Witness for C6: on `hpW` (PER on, budget 8, initial beta 2/5) the first
step does not decrease beta. -/
theorem c6_beta_schedule_witness :
    (initState hpW MW).beta ≤ (envStep hpW MW (initState hpW MW)).beta :=
  (c6_beta_schedule hpW MW (initState hpW MW) (by decide) (by decide)
      (by refine ⟨by norm_num [initState, hpW], by norm_num [initState, hpW], ?_⟩
          intro h
          exact absurd h (by decide))).2.1

/-! ## Step-count accounting for the outer loop -/

theorem runEpisode_step_le (hp : HP) {P E : Type} (M : Collab P E) :
    ∀ (n : Nat) (st : TrainState P E),
      (runEpisode hp M n st).step_counter ≤ st.step_counter + n := by
  intro n
  induction n with
  | zero => intro st; exact Nat.le_refl _
  | succ n ih =>
    intro st
    show (let st' := envStep hp M st;
          if st'.lastDone then st' else runEpisode hp M n st').step_counter
        ≤ st.step_counter + (n + 1)
    have hs := envStep_step_counter hp M st
    by_cases h : (envStep hp M st).lastDone
    · simp only [h, if_pos]
      omega
    · simp only [h, if_neg, Bool.false_eq_true, not_false_iff]
      have := ih (envStep hp M st)
      omega

theorem runEpisode_step_ge (hp : HP) {P E : Type} (M : Collab P E) :
    ∀ (n : Nat) (st : TrainState P E), 1 ≤ n →
      st.step_counter + 1 ≤ (runEpisode hp M n st).step_counter := by
  intro n
  induction n with
  | zero => intro st h; omega
  | succ n ih =>
    intro st _
    show st.step_counter + 1 ≤
      (let st' := envStep hp M st;
       if st'.lastDone then st' else runEpisode hp M n st').step_counter
    have hs := envStep_step_counter hp M st
    by_cases h : (envStep hp M st).lastDone
    · simp only [h, if_pos]
      omega
    · simp only [h, if_neg, Bool.false_eq_true, not_false_iff]
      rcases Nat.eq_zero_or_pos n with hn | hn
      · subst hn
        show st.step_counter + 1 ≤ (envStep hp M st).step_counter
        omega
      · have := ih (envStep hp M st) hn
        omega

theorem episodeStart_step_counter (hp : HP) {P E : Type} (M : Collab P E)
    (st : TrainState P E) :
    (episodeStart hp M st).step_counter = st.step_counter := rfl

theorem episodeEnd_step_counter (hp : HP) {P E : Type} (M : Collab P E)
    (st : TrainState P E) :
    (episodeEnd hp M st).step_counter = st.step_counter := by
  simp only [episodeEnd]
  split_ifs <;> rfl

theorem mainIter_step_le (hp : HP) {P E : Type} (M : Collab P E)
    (st : TrainState P E) :
    (mainIter hp M st).step_counter ≤ st.step_counter + hp.N_STEPS := by
  unfold mainIter
  rw [episodeEnd_step_counter]
  have := runEpisode_step_le hp M hp.N_STEPS (episodeStart hp M st)
  rw [episodeStart_step_counter] at this
  exact this

theorem mainIter_step_ge (hp : HP) {P E : Type} (M : Collab P E)
    (st : TrainState P E) (hN : 1 ≤ hp.N_STEPS) :
    st.step_counter + 1 ≤ (mainIter hp M st).step_counter := by
  unfold mainIter
  rw [episodeEnd_step_counter]
  have := runEpisode_step_ge hp M hp.N_STEPS (episodeStart hp M st) hN
  rw [episodeStart_step_counter] at this
  exact this

theorem runMain_reaches (hp : HP) {P E : Type} (M : Collab P E)
    (hN : 1 ≤ hp.N_STEPS) :
    ∀ (f : Nat) (st : TrainState P E),
      hp.TOTAL_TIMESTEPS ≤ st.step_counter + f →
      hp.TOTAL_TIMESTEPS ≤ (runMain hp M f st).step_counter := by
  intro f
  induction f with
  | zero => intro st h; simpa [runMain] using h
  | succ f ih =>
    intro st h
    show (if st.step_counter < hp.TOTAL_TIMESTEPS then
            runMain hp M f (mainIter hp M st)
          else st).step_counter ≥ hp.TOTAL_TIMESTEPS
    by_cases hc : st.step_counter < hp.TOTAL_TIMESTEPS
    · rw [if_pos hc]
      apply ih
      have := mainIter_step_ge hp M st hN
      omega
    · rw [if_neg hc]
      omega

theorem runMain_overshoot_lt (hp : HP) {P E : Type} (M : Collab P E) :
    ∀ (f : Nat) (st : TrainState P E),
      st.step_counter < hp.TOTAL_TIMESTEPS + hp.N_STEPS →
      (runMain hp M f st).step_counter < hp.TOTAL_TIMESTEPS + hp.N_STEPS := by
  intro f
  induction f with
  | zero => intro st h; simpa [runMain] using h
  | succ f ih =>
    intro st h
    show (if st.step_counter < hp.TOTAL_TIMESTEPS then
            runMain hp M f (mainIter hp M st)
          else st).step_counter < hp.TOTAL_TIMESTEPS + hp.N_STEPS
    by_cases hc : st.step_counter < hp.TOTAL_TIMESTEPS
    · rw [if_pos hc]
      apply ih
      have := mainIter_step_le hp M st
      omega
    · rw [if_neg hc]
      exact h

/-- The hyperparameter set of the C7 counterexample: a budget of one
environment step but episodes of up to two steps. -/
def hpC7 : HP :=
  { TOTAL_TIMESTEPS := 1, N_STEPS := 2, UPDATE_STEPS := 1, UPDATE_TARGET := 1,
    BATCH_SIZE := 5, BUFFER_SIZE := 10, GAMMA := 99/100, INIT_LR := 1/1000,
    IS_LR_DECAY := false, LR_DECAY := 0, INIT_EPS := 1, FIN_EPS := 0,
    EXPLORE := 4, PER := false, PER_BETA := 2/5, PLOT_INTERVAL := 5, SEED := 0 }

/-- Counterexample to C7 as stated: with a step budget of 1 and episodes of
length 2 on an environment that never reports `done`, the run executes 2
environment steps — the cumulative step count exceeds `TOTAL_TIMESTEPS`,
because the while condition is only checked between episodes. -/
theorem c7_counterexample :
    hpC7.TOTAL_TIMESTEPS
      < (runMain hpC7 MW 1 (initState hpC7 MW)).step_counter := by
  decide

/-- Claim C7 amended: the loop terminates — with `N_STEPS ≥ 1`, after at
most `TOTAL_TIMESTEPS` outer iterations the step counter has reached the
budget and the while condition is false — and the total number of
environment steps executed is strictly below
`TOTAL_TIMESTEPS + N_STEPS` (it can exceed `TOTAL_TIMESTEPS` by up to
`N_STEPS - 1`, since the budget is only checked between episodes). -/
theorem c7_termination (hp : HP) {P E : Type} (M : Collab P E)
    (f : Nat) (hN : 1 ≤ hp.N_STEPS) (hf : hp.TOTAL_TIMESTEPS ≤ f) :
    hp.TOTAL_TIMESTEPS ≤ (runMain hp M f (initState hp M)).step_counter ∧
    (runMain hp M f (initState hp M)).step_counter
      < hp.TOTAL_TIMESTEPS + hp.N_STEPS := by
  constructor
  · apply runMain_reaches hp M hN
    have hz : (initState hp M).step_counter = 0 := rfl
    omega
  · apply runMain_overshoot_lt hp M
    have hz : (initState hp M).step_counter = 0 := rfl
    omega

/-- Witness for the amended C7 on the concrete run of the counterexample:
the final step count 2 lies in `[TOTAL_TIMESTEPS, TOTAL_TIMESTEPS + N_STEPS)`. -/
theorem c7_termination_witness :
    hpC7.TOTAL_TIMESTEPS ≤ (runMain hpC7 MW 1 (initState hpC7 MW)).step_counter ∧
    (runMain hpC7 MW 1 (initState hpC7 MW)).step_counter
      < hpC7.TOTAL_TIMESTEPS + hpC7.N_STEPS :=
  c7_termination hpC7 MW 1 (by decide) (by decide)

/-! ## The truncated flag -/

/-- The same collaborators with the `truncated` component of `env.step`
replaced by an arbitrary function; everything else is untouched. -/
def withTrunc {P E : Type} (M : Collab P E) (t : E → Nat → Bool) : Collab P E :=
  { M with
    stepf := fun e a =>
      ((M.stepf e a).1, (M.stepf e a).2.1, (M.stepf e a).2.2.1, t e a) }

theorem envStep_withTrunc (hp : HP) {P E : Type} (M : Collab P E)
    (t : E → Nat → Bool) (st : TrainState P E) :
    envStep hp (withTrunc M t) st = envStep hp M st := rfl

theorem evalSteps_withTrunc {P E : Type} (M : Collab P E)
    (t : E → Nat → Bool) (p : P) :
    ∀ (n : Nat) (e : E) (acc : ℚ),
      evalSteps (withTrunc M t) p n e acc = evalSteps M p n e acc := by
  intro n
  induction n with
  | zero => intro e acc; rfl
  | succ n ih =>
    intro e acc
    simp only [evalSteps, withTrunc]
    split_ifs <;> first | rfl | apply ih

theorem runEpisode_withTrunc (hp : HP) {P E : Type} (M : Collab P E)
    (t : E → Nat → Bool) :
    ∀ (n : Nat) (st : TrainState P E),
      runEpisode hp (withTrunc M t) n st = runEpisode hp M n st := by
  intro n
  induction n with
  | zero => intro st; rfl
  | succ n ih =>
    intro st
    show (let st' := envStep hp (withTrunc M t) st;
          if st'.lastDone then st' else runEpisode hp (withTrunc M t) n st')
        = runEpisode hp M (n + 1) st
    rw [envStep_withTrunc hp M t st]
    show (if (envStep hp M st).lastDone then envStep hp M st
          else runEpisode hp (withTrunc M t) n (envStep hp M st))
        = runEpisode hp M (n + 1) st
    rw [ih]
    rfl

theorem eval_model_withTrunc (hp : HP) {P E : Type} (M : Collab P E)
    (t : E → Nat → Bool) (p : P) (seed : Nat) :
    eval_model hp (withTrunc M t) p seed = eval_model hp M p seed := by
  unfold eval_model
  rw [evalSteps_withTrunc]
  rfl

theorem episodeEnd_withTrunc (hp : HP) {P E : Type} (M : Collab P E)
    (t : E → Nat → Bool) (st : TrainState P E) :
    episodeEnd hp (withTrunc M t) st = episodeEnd hp M st := by
  simp only [episodeEnd, eval_model_withTrunc]

theorem mainIter_withTrunc (hp : HP) {P E : Type} (M : Collab P E)
    (t : E → Nat → Bool) (st : TrainState P E) :
    mainIter hp (withTrunc M t) st = mainIter hp M st := by
  unfold mainIter
  rw [runEpisode_withTrunc, episodeEnd_withTrunc]
  rfl

theorem runMain_withTrunc (hp : HP) {P E : Type} (M : Collab P E)
    (t : E → Nat → Bool) :
    ∀ (f : Nat) (st : TrainState P E),
      runMain hp (withTrunc M t) f st = runMain hp M f st := by
  intro f
  induction f with
  | zero => intro st; rfl
  | succ f ih =>
    intro st
    show (if st.step_counter < hp.TOTAL_TIMESTEPS then
            runMain hp (withTrunc M t) f (mainIter hp (withTrunc M t) st)
          else st)
        = runMain hp M (f + 1) st
    rw [mainIter_withTrunc, ih]
    rfl

/-- The collaborator set of the C8 counterexample: every `env.step` returns
`done = false` together with `truncated = true`. -/
def MT : Collab Nat Unit :=
  { reset := fun _ => ()
    stepf := fun _ _ => ((), 1, false, true)
    act := fun _ _ _ => 0
    grad := fun p => p + 1
    initParams := 0
    initEnv := ()
    randint := fun _ => 42 }

/-- The hyperparameter set of the C8 counterexample: episodes of up to
three steps inside a larger budget. -/
def hpC8 : HP :=
  { TOTAL_TIMESTEPS := 10, N_STEPS := 3, UPDATE_STEPS := 1, UPDATE_TARGET := 1,
    BATCH_SIZE := 5, BUFFER_SIZE := 10, GAMMA := 99/100, INIT_LR := 1/1000,
    IS_LR_DECAY := false, LR_DECAY := 0, INIT_EPS := 1, FIN_EPS := 0,
    EXPLORE := 4, PER := false, PER_BETA := 2/5, PLOT_INTERVAL := 5, SEED := 0 }

/-- Counterexample to C8 as stated: on an environment whose every step
reports `truncated = true` (and `done = false`), the first episode does not
break at its first step — it runs all three of its steps, so the episode
loop does not break on `truncated`. -/
theorem c8_counterexample :
    (MT.stepf () 0).2.2.2 = true ∧
    (runEpisode hpC8 MT hpC8.N_STEPS (episodeStart hpC8 MT (initState hpC8 MT))).step_counter
      = 3 := by
  exact ⟨rfl, by decide⟩

/-- Claim C8 amended: the episode loop breaks only on the `done` flag of
`env.step` — the `truncated` flag is read but never used, so replacing the
`truncated` component of the environment by any function at all changes
nothing about the run (in particular it never alters the TD target). -/
theorem c8_trunc_ignored (hp : HP) {P E : Type} (M : Collab P E)
    (t : E → Nat → Bool) (f : Nat) (st : TrainState P E) :
    (envStep hp M st).lastDone
      = (M.stepf st.envS (M.act st.onlineParams st.envS st.epsilon)).2.2.1 ∧
    runMain hp (withTrunc M t) f st = runMain hp M f st :=
  ⟨envStep_lastDone hp M st, runMain_withTrunc hp M t f st⟩

/-! ## Reset seeds and the evaluation frame -/

theorem runEpisode_env_seed (hp : HP) {P E : Type} (M : Collab P E) :
    ∀ (n : Nat) (st : TrainState P E),
      (runEpisode hp M n st).env_seed = st.env_seed := by
  intro n
  induction n with
  | zero => intro st; rfl
  | succ n ih =>
    intro st
    show (let st' := envStep hp M st;
          if st'.lastDone then st' else runEpisode hp M n st').env_seed
        = st.env_seed
    by_cases h : (envStep hp M st).lastDone
    · simp only [h, if_pos]
      exact envStep_env_seed hp M st
    · simp only [h, if_neg, Bool.false_eq_true, not_false_iff]
      rw [ih, envStep_env_seed]

theorem runEpisode_resetLog (hp : HP) {P E : Type} (M : Collab P E) :
    ∀ (n : Nat) (st : TrainState P E),
      (runEpisode hp M n st).resetLog = st.resetLog := by
  intro n
  induction n with
  | zero => intro st; rfl
  | succ n ih =>
    intro st
    show (let st' := envStep hp M st;
          if st'.lastDone then st' else runEpisode hp M n st').resetLog
        = st.resetLog
    by_cases h : (envStep hp M st).lastDone
    · simp only [h, if_pos]
      exact envStep_resetLog hp M st
    · simp only [h, if_neg, Bool.false_eq_true, not_false_iff]
      rw [ih, envStep_resetLog]

theorem episodeEnd_env_seed (hp : HP) {P E : Type} (M : Collab P E)
    (st : TrainState P E) :
    (episodeEnd hp M st).env_seed = st.env_seed := by
  simp only [episodeEnd]
  split_ifs <;> rfl

theorem episodeEnd_resetLog_mem (hp : HP) {P E : Type} (M : Collab P E)
    (st : TrainState P E) :
    ∀ x ∈ (episodeEnd hp M st).resetLog, x ∈ st.resetLog ∨ x = st.env_seed := by
  simp only [episodeEnd]
  split_ifs <;> intro x hx
  · rcases List.mem_append.mp hx with h | h
    · exact Or.inl h
    · exact Or.inr (List.mem_singleton.mp h)
  · exact Or.inl hx
  · rcases List.mem_append.mp hx with h | h
    · exact Or.inl h
    · exact Or.inr (List.mem_singleton.mp h)
  · exact Or.inl hx

theorem mainIter_seed (hp : HP) {P E : Type} (M : Collab P E)
    (s : Nat) (st : TrainState P E)
    (h1 : st.env_seed = s) (h2 : ∀ x ∈ st.resetLog, x = s) :
    (mainIter hp M st).env_seed = s ∧
      ∀ x ∈ (mainIter hp M st).resetLog, x = s := by
  unfold mainIter
  have hs1 : (episodeStart hp M st).env_seed = s := h1
  have hl1 : ∀ x ∈ (episodeStart hp M st).resetLog, x = s := by
    intro x hx
    rcases List.mem_append.mp hx with h | h
    · exact h2 x h
    · rw [List.mem_singleton.mp h, h1]
  have hs2 : (runEpisode hp M hp.N_STEPS (episodeStart hp M st)).env_seed = s := by
    rw [runEpisode_env_seed]; exact hs1
  have hl2 : ∀ x ∈ (runEpisode hp M hp.N_STEPS (episodeStart hp M st)).resetLog, x = s := by
    rw [runEpisode_resetLog]; exact hl1
  refine ⟨by rw [episodeEnd_env_seed]; exact hs2, ?_⟩
  intro x hx
  rcases episodeEnd_resetLog_mem hp M _ x hx with h | h
  · exact hl2 x h
  · rw [h]; exact hs2

theorem runMain_seed (hp : HP) {P E : Type} (M : Collab P E) (s : Nat) :
    ∀ (f : Nat) (st : TrainState P E),
      st.env_seed = s → (∀ x ∈ st.resetLog, x = s) →
      (runMain hp M f st).env_seed = s ∧
        ∀ x ∈ (runMain hp M f st).resetLog, x = s := by
  intro f
  induction f with
  | zero => intro st h1 h2; exact ⟨h1, h2⟩
  | succ f ih =>
    intro st h1 h2
    have hunf : runMain hp M (f + 1) st =
        if st.step_counter < hp.TOTAL_TIMESTEPS then
          runMain hp M f (mainIter hp M st)
        else st := rfl
    rw [hunf]
    by_cases hc : st.step_counter < hp.TOTAL_TIMESTEPS
    · rw [if_pos hc]
      obtain ⟨g1, g2⟩ := mainIter_seed hp M s st h1 h2
      exact ih (mainIter hp M st) g1 g2
    · rw [if_neg hc]
      exact ⟨h1, h2⟩

/-- Claim C9: the environment seed is drawn once at startup from the seeded
RNG (`env_seed = np.random.randint(0,100)`), the run never changes it,
every `env.reset` of the run — at each episode start and inside each
periodic evaluation — is called with exactly that seed, and each training
episode therefore begins from the identical initial environment state
`reset(env_seed)`. -/
theorem c9_fixed_seed (hp : HP) {P E : Type} (M : Collab P E) (f : Nat) :
    (initState hp M).env_seed = M.randint hp.SEED ∧
    (runMain hp M f (initState hp M)).env_seed = M.randint hp.SEED ∧
    (∀ x ∈ (runMain hp M f (initState hp M)).resetLog, x = M.randint hp.SEED) ∧
    (∀ st : TrainState P E, (episodeStart hp M st).envS = M.reset st.env_seed) := by
  obtain ⟨g1, g2⟩ :=
    runMain_seed hp M (M.randint hp.SEED) f (initState hp M) rfl (by intro x hx; cases hx)
  exact ⟨rfl, g1, g2, fun st => rfl⟩

/-- Witness for C9: on the concrete one-episode run of `hpC7`, the single
logged reset seed is the startup draw 42. -/
theorem c9_fixed_seed_witness : (42 : Nat) = MW.randint hpC7.SEED :=
  (c9_fixed_seed hpC7 MW 1).2.2.1 42 (by decide)

/-- Claim C10: the end-of-episode block, including the periodic greedy
evaluation episode it may run, leaves the whole training state unchanged:
step counter, learning-update counter, exploration rate, bias-correction
exponent, online and target parameters, and the replay live-count are all
exactly as before (an evaluation inserts no transitions and mutates no
network). -/
theorem c10_eval_frame (hp : HP) {P E : Type} (M : Collab P E)
    (st : TrainState P E) :
    (episodeEnd hp M st).step_counter = st.step_counter ∧
    (episodeEnd hp M st).lstep_counter = st.lstep_counter ∧
    (episodeEnd hp M st).epsilon = st.epsilon ∧
    (episodeEnd hp M st).beta = st.beta ∧
    (episodeEnd hp M st).onlineParams = st.onlineParams ∧
    (episodeEnd hp M st).targetParams = st.targetParams ∧
    (episodeEnd hp M st).replayCount = st.replayCount := by
  simp only [episodeEnd]
  split_ifs <;> exact ⟨rfl, rfl, rfl, rfl, rfl, rfl, rfl⟩

end DQNTrain
